import Mathlib

/-!
Shallow embedding of the cost-analytics dashboard's data-processing core:
column classification, row filtering, group-by aggregation, date bucketing,
and the file-drop load transitions, translated from the TypeScript source,
together with theorems settling the specification's claims.

The JS runtime primitives the source relies on (String.prototype.trim,
toLowerCase, includes, padStart, parseFloat, Number, number-to-string,
Date parsing and the Date constructor) are modeled explicitly below; each
model carries a comment stating its scope. Cells are modeled by their JS
string form, with `none` standing for null/undefined.
-/

/-- Numeric value of a digit character via its char code. -/
def charVal (c : Char) : Nat := c.toNat - 48

/-- ASCII whitespace recognized by the JS trim model. -/
def jsWhitespaceChar (c : Char) : Bool :=
  c == ' ' || c == '\t' || c == '\n' || c == '\r' || c == '\x0b' || c == '\x0c'

/-- Model of JS String.prototype.trim restricted to ASCII whitespace. -/
def jsTrim (s : String) : String :=
  String.mk (((s.data.dropWhile jsWhitespaceChar).reverse.dropWhile jsWhitespaceChar).reverse)

/-- Model of JS String.prototype.toLowerCase restricted to ASCII letters. -/
def charLower (c : Char) : Char :=
  if 'A' ≤ c ∧ c ≤ 'Z' then Char.ofNat (c.toNat + 32) else c

def strLower (s : String) : String := String.mk (s.data.map charLower)

def listStartsWith : List Char → List Char → Bool
  | [], _ => true
  | _ :: _, [] => false
  | a :: as, b :: bs => a == b && listStartsWith as bs

def listIsSub (needle : List Char) : List Char → Bool
  | [] => needle.isEmpty
  | c :: rest => listStartsWith needle (c :: rest) || listIsSub needle rest

/-- Model of JS String.prototype.includes: the needle occurs contiguously in the haystack. -/
def strIncludes (hay needle : String) : Bool := listIsSub needle.data hay.data

/-- Model of JS String.prototype.padStart with width 2 and pad character 0. -/
def jsPadStart2 (s : String) : String :=
  if s.data.length < 2 then String.mk (List.replicate (2 - s.data.length) '0') ++ s else s

/-- Digit list of a nonnegative integer, most significant first; the fuel
argument (any bound above the digit count) keeps the recursion structural. -/
def jsNatReprAux : Nat → Nat → List Char
  | 0, _ => []
  | fuel + 1, n =>
    if n < 10 then [Nat.digitChar n]
    else jsNatReprAux fuel (n / 10) ++ [Nat.digitChar (n % 10)]

/-- Model of JS number-to-string on nonnegative integers (decimal form). -/
def jsNatRepr (n : Nat) : String := String.mk (jsNatReprAux (n + 1) n)

/-- Model of JS number-to-string on integers (decimal form). -/
def jsIntRepr (i : Int) : String :=
  if i < 0 then "-" ++ jsNatRepr i.natAbs else jsNatRepr i.toNat

/-- Model of the source's s.replace of every comma by the empty string. -/
def stripCommas (s : String) : String := String.mk (s.data.filter (fun c => !(c == ',')))

def digitsToNat (l : List Char) : Nat := l.foldl (fun acc c => 10 * acc + charVal c) 0

def powTen (e : Int) : ℚ := if 0 ≤ e then (10 : ℚ) ^ e.toNat else 1 / (10 : ℚ) ^ (-e).toNat

/-- Exponent part for the parseFloat model: optional sign then digits; a
missing digit run means the exponent marker is not part of the literal. -/
def expOf (u : List Char) : Int :=
  match u with
  | '+' :: t =>
    if (t.takeWhile Char.isDigit).isEmpty then 0 else (digitsToNat (t.takeWhile Char.isDigit) : Int)
  | '-' :: t =>
    if (t.takeWhile Char.isDigit).isEmpty then 0 else -(digitsToNat (t.takeWhile Char.isDigit) : Int)
  | t =>
    if (t.takeWhile Char.isDigit).isEmpty then 0 else (digitsToNat (t.takeWhile Char.isDigit) : Int)

/-- Model of JS parseFloat on decimal literals: leading whitespace skipped,
optional sign, then the longest decimal-literal prefix; none models NaN.
Hexadecimal and Infinity forms do not occur in this program's data and are
not modeled. -/
def jsParseFloat (s : String) : Option ℚ :=
  let l := s.data.dropWhile jsWhitespaceChar
  let sl : ℚ × List Char :=
    match l with
    | '+' :: t => (1, t)
    | '-' :: t => (-1, t)
    | t => (1, t)
  let ip := sl.2.takeWhile Char.isDigit
  let r1 := sl.2.dropWhile Char.isDigit
  let fr : List Char × List Char :=
    match r1 with
    | '.' :: u => (u.takeWhile Char.isDigit, u.dropWhile Char.isDigit)
    | _ => ([], r1)
  if ip.isEmpty && fr.1.isEmpty then none
  else
    let mant : ℚ := (digitsToNat ip : ℚ) + (digitsToNat fr.1 : ℚ) / (10 : ℚ) ^ fr.1.length
    let ex : Int :=
      match fr.2 with
      | 'e' :: u => expOf u
      | 'E' :: u => expOf u
      | _ => 0
    some (sl.1 * mant * powTen ex)

/-- Exponent part for the Number() model: optional sign then a nonempty digit
run consuming the rest of the string. -/
def numExp (u : List Char) : Option Int :=
  let st : Int × List Char :=
    match u with
    | '+' :: t => (1, t)
    | '-' :: t => (-1, t)
    | t => (1, t)
  let ds := st.2.takeWhile Char.isDigit
  if ds.isEmpty then none
  else if (st.2.dropWhile Char.isDigit).isEmpty then some (st.1 * (digitsToNat ds : Int)) else none

/-- Model of JS Number() string coercion on decimal literals: full-string
match after trimming; the empty string is 0; none models NaN. Hexadecimal
and Infinity forms do not occur in this program's data and are not modeled. -/
def jsNumber (s : String) : Option ℚ :=
  let l := (jsTrim s).data
  if l.isEmpty then some 0
  else
    let sl : ℚ × List Char :=
      match l with
      | '+' :: t => (1, t)
      | '-' :: t => (-1, t)
      | t => (1, t)
    let ip := sl.2.takeWhile Char.isDigit
    let r1 := sl.2.dropWhile Char.isDigit
    let fr : List Char × List Char :=
      match r1 with
      | '.' :: u => (u.takeWhile Char.isDigit, u.dropWhile Char.isDigit)
      | _ => ([], r1)
    if ip.isEmpty && fr.1.isEmpty then none
    else
      let mant : ℚ := (digitsToNat ip : ℚ) + (digitsToNat fr.1 : ℚ) / (10 : ℚ) ^ fr.1.length
      match fr.2 with
      | [] => some (sl.1 * mant)
      | 'e' :: u => (numExp u).map (fun e => sl.1 * mant * powTen e)
      | 'E' :: u => (numExp u).map (fun e => sl.1 * mant * powTen e)
      | _ => none

/-- parseFloatSafe from the source: stringify (null to empty), strip
thousands-separator commas, parseFloat, and coerce NaN to 0. -/
def parseFloatSafe (v : Option String) : ℚ :=
  match jsParseFloat (stripCommas (v.getD "")) with
  | some q => q
  | none => 0

/-! Date model. -/

def isLeapYear (y : Nat) : Bool := (y % 4 == 0 && y % 100 != 0) || y % 400 == 0

def daysInMonth (y m : Nat) : Nat :=
  if m = 2 then (if isLeapYear y then 29 else 28)
  else if m = 4 ∨ m = 6 ∨ m = 9 ∨ m = 11 then 30 else 31

def digits2 (a b : Char) : Option Nat :=
  if a.isDigit && b.isDigit then some (10 * charVal a + charVal b) else none

def digits4 (a b c d : Char) : Option Nat :=
  if a.isDigit && b.isDigit && c.isDigit && d.isDigit then
    some (((charVal a * 10 + charVal b) * 10 + charVal c) * 10 + charVal d)
  else none

/-- Model of the ECMAScript date-only Date Time String forms YYYY, YYYY-MM
and YYYY-MM-DD accepted by new Date(string) / Date.parse; out-of-range
components give an invalid date (none). Time suffixes, expanded years and
any implementation-defined fallback parsing are not modeled. -/
def isoParse : List Char → Option (Nat × Nat × Nat)
  | [y1, y2, y3, y4] => (digits4 y1 y2 y3 y4).map (fun y => (y, 1, 1))
  | [y1, y2, y3, y4, s1, m1, m2] =>
    if s1 = '-' then
      match digits4 y1 y2 y3 y4, digits2 m1 m2 with
      | some y, some m => if 1 ≤ m ∧ m ≤ 12 then some (y, m, 1) else none
      | _, _ => none
    else none
  | [y1, y2, y3, y4, s1, m1, m2, s2, d1, d2] =>
    if s1 = '-' ∧ s2 = '-' then
      match digits4 y1 y2 y3 y4, digits2 m1 m2, digits2 d1 d2 with
      | some y, some m, some d =>
        if 1 ≤ m ∧ m ≤ 12 ∧ 1 ≤ d ∧ d ≤ daysInMonth y m then some (y, m, d) else none
      | _, _, _ => none
    else none
  | _ => none

def jsNewDateAuto (s : String) : Option (Nat × Nat × Nat) := isoParse s.data

/-- Day number since 1970-01-01 of a proleptic Gregorian date (Hinnant's
days_from_civil), used to model the normalizing Date constructor. -/
def daysFromCivil (y : Int) (m : Nat) (d : Int) : Int :=
  let y1 : Int := if m ≤ 2 then y - 1 else y
  let era : Int := y1.fdiv 400
  let yoe : Int := y1 - era * 400
  let mp : Int := if 2 < m then (m : Int) - 3 else (m : Int) + 9
  let doy : Int := (153 * mp + 2).fdiv 5 + d - 1
  let doe : Int := yoe * 365 + yoe.fdiv 4 - yoe.fdiv 100 + doy
  era * 146097 + doe - 719468

/-- Proleptic Gregorian date of a day number (Hinnant's civil_from_days). -/
def civilFromDays (z0 : Int) : Int × Nat × Nat :=
  let z := z0 + 719468
  let era : Int := z.fdiv 146097
  let doe : Nat := (z - era * 146097).toNat
  let yoe : Nat := (doe - doe / 1460 + doe / 36524 - doe / 146096) / 365
  let y : Int := (yoe : Int) + era * 400
  let doy : Nat := doe - (365 * yoe + yoe / 4 - yoe / 100)
  let mp : Nat := (5 * doy + 2) / 153
  let d : Nat := doy - (153 * mp + 2) / 5 + 1
  let m : Nat := if mp < 10 then mp + 3 else mp - 9
  (if m ≤ 2 then y + 1 else y, m, d)

/-- Model of new Date(year, month0, day) with the ECMAScript two-digit-year
adjustment and calendar normalization of out-of-range month and day; the
local-time getters that read the fields back are modeled with local
timezone UTC. -/
def jsDateCtor (y m0 d : Int) : Int × Nat × Nat :=
  let y1 : Int := if 0 ≤ y ∧ y ≤ 99 then y + 1900 else y
  let ym : Int := y1 + m0.fdiv 12
  let mn : Nat := (m0.emod 12).toNat
  civilFromDays (daysFromCivil ym (mn + 1) 1 + (d - 1))

inductive DateFormat where
  | auto
  | ymdDash
  | mdySlash
  | dmySlash
  | ymdSlash
  | dMmmY
deriving DecidableEq

/-- Digit run of length exactly 1 or 2 (the anchored regex piece d{1,2}
followed by a non-digit or the end). -/
def run2 (l : List Char) : Option (Nat × List Char) :=
  let ds := l.takeWhile Char.isDigit
  if ds.length = 1 ∨ ds.length = 2 then some (digitsToNat ds, l.dropWhile Char.isDigit)
  else none

/-- Digit run of length exactly 4 (the anchored regex piece d{4} followed by
a non-digit or the end). -/
def run4 (l : List Char) : Option (Nat × List Char) :=
  let ds := l.takeWhile Char.isDigit
  if ds.length = 4 then some (digitsToNat ds, l.dropWhile Char.isDigit) else none

/-- The source's anchored pattern of 4-digit year, dash, 1-2 digit month,
dash, 1-2 digit day. -/
def matchYMDdash (l : List Char) : Option (Nat × Nat × Nat) :=
  match run4 l with
  | some (y, '-' :: r1) =>
    match run2 r1 with
    | some (m, '-' :: r2) =>
      match run2 r2 with
      | some (d, []) => some (y, m, d)
      | _ => none
    | _ => none
  | _ => none

/-- The source's anchored pattern of 1-2 digits, slash, 1-2 digits, slash,
4-digit year; returns (first, second, year). -/
def matchDDslash (l : List Char) : Option (Nat × Nat × Nat) :=
  match run2 l with
  | some (a, '/' :: r1) =>
    match run2 r1 with
    | some (b, '/' :: r2) =>
      match run4 r2 with
      | some (y, []) => some (a, b, y)
      | _ => none
    | _ => none
  | _ => none

/-- The source's anchored pattern of 4-digit year, slash, 1-2 digit month,
slash, 1-2 digit day. -/
def matchYMDslash (l : List Char) : Option (Nat × Nat × Nat) :=
  match run4 l with
  | some (y, '/' :: r1) =>
    match run2 r1 with
    | some (m, '/' :: r2) =>
      match run2 r2 with
      | some (d, []) => some (y, m, d)
      | _ => none
    | _ => none
  | _ => none

/-- The source's case-sensitive three-letter month table. -/
def monthAbbrev (s : String) : Option Nat :=
  match s with
  | "Jan" => some 0
  | "Feb" => some 1
  | "Mar" => some 2
  | "Apr" => some 3
  | "May" => some 4
  | "Jun" => some 5
  | "Jul" => some 6
  | "Aug" => some 7
  | "Sep" => some 8
  | "Oct" => some 9
  | "Nov" => some 10
  | "Dec" => some 11
  | _ => none

/-- The source's anchored pattern of 1-2 digit day, dash, 3 letters, dash,
4-digit year; returns (day, month letters, year). -/
def matchDMmmY (l : List Char) : Option (Nat × String × Nat) :=
  match run2 l with
  | some (d, '-' :: r1) =>
    if (r1.takeWhile Char.isAlpha).length = 3 then
      match r1.dropWhile Char.isAlpha with
      | '-' :: r2 =>
        match run4 r2 with
        | some (y, []) => some (d, String.mk (r1.takeWhile Char.isAlpha), y)
        | _ => none
      | _ => none
    else none
  | _ => none

/-- parseDateWithFormat from the source; none models an invalid Date (NaN
getTime). The fixed formats build the date through the normalizing numeric
Date constructor, exactly as the source does. -/
def parseDateWithFormat (s : String) (format : DateFormat) : Option (Int × Nat × Nat) :=
  match format with
  | .auto => (jsNewDateAuto s).map (fun p => ((p.1 : Int), p.2.1, p.2.2))
  | .ymdDash => (matchYMDdash s.data).map (fun p => jsDateCtor (p.1 : Int) ((p.2.1 : Int) - 1) (p.2.2 : Int))
  | .mdySlash => (matchDDslash s.data).map (fun p => jsDateCtor (p.2.2 : Int) ((p.1 : Int) - 1) (p.2.1 : Int))
  | .dmySlash => (matchDDslash s.data).map (fun p => jsDateCtor (p.2.2 : Int) ((p.2.1 : Int) - 1) (p.1 : Int))
  | .ymdSlash => (matchYMDslash s.data).map (fun p => jsDateCtor (p.1 : Int) ((p.2.1 : Int) - 1) (p.2.2 : Int))
  | .dMmmY =>
    match matchDMmmY s.data with
    | some (d, mon, y) =>
      match monthAbbrev mon with
      | some m0 => some (jsDateCtor (y : Int) (m0 : Int) (d : Int))
      | none => none
    | none => none

/-- The source's fallback pattern of a leading 4-digit year, dash or slash,
then a greedy 1-2 digit month; returns the captured year and month strings. -/
def matchYYYYM (s : String) : Option (String × String) :=
  match s.data with
  | c1 :: c2 :: c3 :: c4 :: sep :: rest =>
    if c1.isDigit && c2.isDigit && c3.isDigit && c4.isDigit && (sep == '-' || sep == '/') then
      match rest with
      | m1 :: rest2 =>
        if m1.isDigit then
          match rest2 with
          | m2 :: _ =>
            if m2.isDigit then some (String.mk [c1, c2, c3, c4], String.mk [m1, m2])
            else some (String.mk [c1, c2, c3, c4], String.mk [m1])
          | [] => some (String.mk [c1, c2, c3, c4], String.mk [m1])
        else none
      | [] => none
    else none
  | _ => none

/-- Body of formatDateBucket after the initial stringify-and-trim. -/
def formatDateBucketTrimmed (s : String) (monthBucket : Bool) (format : DateFormat) : String :=
  if s = "" then s
  else
    match parseDateWithFormat s format with
    | none =>
      match matchYYYYM s with
      | some p => p.1 ++ "-" ++ jsPadStart2 p.2
      | none => s
    | some (y, m, d) =>
      if !monthBucket then
        jsIntRepr y ++ "-" ++ jsPadStart2 (jsNatRepr m) ++ "-" ++ jsPadStart2 (jsNatRepr d)
      else jsIntRepr y ++ "-" ++ jsPadStart2 (jsNatRepr m)

/-- formatDateBucket from the source; a none value models a null cell. -/
def formatDateBucket (value : Option String) (monthBucket : Bool) (format : DateFormat) : String :=
  formatDateBucketTrimmed (jsTrim (value.getD "")) monthBucket format

/-! Rows and cells. -/

/-- A raw spreadsheet cell: none models null/undefined, some its JS string form. -/
abbrev RawCell := Option String

abbrev RawRow := List RawCell

/-- rowAccess models row[i]: undefined past the end, the stored cell otherwise. -/
def getCell (row : RawRow) (i : Nat) : Option String := row.getD i none

/-- String(row[i] ?? "") as used throughout the source. -/
def cellStr (row : RawRow) (i : Nat) : String := (getCell row i).getD ""

/-! Filtering. -/

inductive FilterOp where
  | contains
  | equals
  | notContains
  | notEquals
deriving DecidableEq

structure FilterRule where
  colIdx : Nat
  op : FilterOp
  value : String
deriving DecidableEq

/-- matchesRow from the source: an empty rule list passes; otherwise the loop
returns false on the first failing rule, so every rule must pass. -/
def matchesRow (row : RawRow) (rules : List FilterRule) : Bool :=
  rules.all (fun r =>
    let v := cellStr row r.colIdx
    match r.op with
    | .contains => strIncludes (strLower v) (strLower r.value)
    | .equals => v == r.value
    | .notContains => !(strIncludes (strLower v) (strLower r.value))
    | .notEquals => !(v == r.value))

/-! Aggregation. -/

inductive Aggregation where
  | sum
  | avg
  | count
deriving DecidableEq

/-- buildGroupKey from the source. -/
def buildGroupKey (row : RawRow) (dimIdxs : List Nat) : String :=
  if dimIdxs.length = 0 then "All"
  else String.intercalate " • " (dimIdxs.map (fun idx =>
    match getCell row idx with
    | none => "(empty)"
    | some v => if v = "" then "(empty)" else v))

/-- One Map.set step of the aggregation loops: update an existing key in
place (keeping its insertion position) or append a new one, adding the value
to the sum and one to the count. -/
def updTot (m : List (String × ℚ × Nat)) (k : String) (v : ℚ) : List (String × ℚ × Nat) :=
  match m with
  | [] => [(k, v, 1)]
  | (k0, s0, c0) :: t => if k0 = k then (k0, s0 + v, c0 + 1) :: t else (k0, s0, c0) :: updTot t k v

/-- The shared shape of the aggregation loops: fold the rows passing the
filter rules into a keyed (sum, count) table in insertion order. -/
def foldTotals (keyOf : RawRow → String) (valOf : RawRow → ℚ) (rules : List FilterRule)
    (rows : List RawRow) : List (String × ℚ × Nat) :=
  rows.foldl (fun m row => if matchesRow row rules then updTot m (keyOf row) (valOf row) else m) []

/-- The per-row value of the aggregation loops: 1 under count, otherwise
parseFloatSafe of the primary metric cell. -/
def aggVal (agg : Aggregation) (metricIdx : Nat) (row : RawRow) : ℚ :=
  match agg with
  | .count => 1
  | _ => parseFloatSafe (getCell row metricIdx)

/-- The per-group reduced value: sum, count, or average (0 when the count is 0). -/
def finalVal (agg : Aggregation) (s : ℚ) (c : Nat) : ℚ :=
  match agg with
  | .sum => s
  | .count => (c : ℚ)
  | .avg => if c = 0 then 0 else s / (c : ℚ)

/-- pieData from the source (the useMemo body past its empty-selection
guards): totals over the filtered rows keyed by the selected dimension
combination or All, reduced by the chosen aggregation. -/
def pieData (rows : List RawRow) (rules : List FilterRule) (selectedDims : List Nat)
    (agg : Aggregation) (metricIdx : Nat) : List (String × ℚ) :=
  (foldTotals
      (fun row => if selectedDims.length ≠ 0 then buildGroupKey row selectedDims else "All")
      (aggVal agg metricIdx) rules rows).map
    (fun e => (e.1, finalVal agg e.2.1 e.2.2))

/-- Stable insertion of an entry after every entry whose key is ≤ its key. -/
def insertByKey (e : String × ℚ × Nat) : List (String × ℚ × Nat) → List (String × ℚ × Nat)
  | [] => [e]
  | f :: t => if f.1 ≤ e.1 then f :: insertByKey e t else e :: f :: t

/-- Model of the source's stable sort of map entries by bucket-key string
comparison (localeCompare on these ASCII bucket keys coincides with
lexicographic String order). -/
def sortByKey (l : List (String × ℚ × Nat)) : List (String × ℚ × Nat) :=
  l.foldl (fun acc e => insertByKey e acc) []

/-- The running-sum loop of areaData. -/
def runCum (agg : Aggregation) (running : ℚ) : List (String × ℚ × Nat) → List (String × ℚ)
  | [] => []
  | (dte, s, c) :: t =>
    (dte, running + finalVal agg s c) :: runCum agg (running + finalVal agg s c) t

/-- areaData from the source (past its empty-selection guards): per-bucket
totals of the filtered rows, sorted by bucket key, then a running cumulative
sum across buckets in that order. -/
def areaData (rows : List RawRow) (rules : List FilterRule) (dateIdx : Nat)
    (monthBucket : Bool) (format : DateFormat) (metricIdx : Nat) (agg : Aggregation) :
    List (String × ℚ) :=
  runCum agg 0 (sortByKey (foldTotals
    (fun row => formatDateBucket (getCell row dateIdx) monthBucket format)
    (aggVal agg metricIdx) rules rows))

/-! Column classification. -/

structure ColMapping where
  dateIdx : Nat
  costIdx : Nat
  serviceIdx : Nat
deriving DecidableEq

/-- First index of an element in a list (JS indexOf); none models -1. -/
def firstIdxOf {α : Type} [DecidableEq α] (a : α) : List α → Option Nat
  | [] => none
  | b :: t => if b = a then some 0 else (firstIdxOf a t).map (· + 1)

/-- Math.max over a list of nonnegative scores (spread over an empty list
yields the none index downstream via firstIdxOf). -/
def listMax (l : List Nat) : Nat := l.foldl max 0

/-- The column count as computed by detectFromData: header length if a
header exists, else first-row length if a row exists, else the default 3. -/
def colsOf (headerRow : Option (List String)) (rawRows : List RawRow) : Nat :=
  match headerRow with
  | some h => h.length
  | none =>
    match rawRows with
    | r0 :: _ => r0.length
    | [] => 3

/-- A cell looks like a date: non-null, Date.parse succeeds and Number fails
on its trimmed string form. -/
def cellDateLike (v : Option String) : Bool :=
  match v with
  | none => false
  | some w => (jsNewDateAuto (jsTrim w)).isSome && (jsNumber (jsTrim w)).isNone

/-- A cell looks numeric: non-null and Number succeeds on its trimmed string
form. -/
def cellNumericLike (v : Option String) : Bool :=
  match v with
  | none => false
  | some w => (jsNumber (jsTrim w)).isSome

/-- detectFromData from the source: score the first min(10, rowCount) rows
per column, pick the first index of the maximal date score and of the
maximal numeric score (with the source's -1 fallbacks to 0 and 1), and the
first remaining column as the service column. -/
def detectFromData (headerRow : Option (List String)) (rawRows : List RawRow) : ColMapping :=
  let cols := colsOf headerRow rawRows
  let sample := rawRows.take 10
  let dateScores := (List.range cols).map
    (fun c => (sample.filter (fun r => cellDateLike (getCell r c))).length)
  let numericScores := (List.range cols).map
    (fun c => (sample.filter (fun r => cellNumericLike (getCell r c))).length)
  let dateIdxRaw := firstIdxOf (listMax dateScores) dateScores
  let costIdxRaw := firstIdxOf (listMax numericScores) numericScores
  let serviceIdx := ((List.range cols).filter
    (fun c => !(some c == dateIdxRaw) && !(some c == costIdxRaw))).headD 0
  { dateIdx := dateIdxRaw.getD 0, costIdx := costIdxRaw.getD 1, serviceIdx := serviceIdx }

/-- The header-name override applied on load in the variant component: exact
case-insensitive matches of cost and metercategory override the heuristic
cost and service choices; the date choice always keeps the heuristic. -/
def chooseMapping (firstRow : List String) (rawRows : List RawRow) : ColMapping :=
  let guessed := detectFromData (some firstRow) rawRows
  let headerLower := firstRow.map strLower
  let costIdxH := firstIdxOf "cost" headerLower
  let meterIdxH := firstIdxOf "metercategory" headerLower
  { dateIdx := guessed.dateIdx,
    costIdx := costIdxH.getD guessed.costIdx,
    serviceIdx := meterIdxH.getD guessed.serviceIdx }

/-! Load transitions. -/

/-- createDefaultHeader from the source. -/
def createDefaultHeader (rows : List RawRow) : List String :=
  let maxCols := match rows with | r0 :: _ => r0.length | [] => 3
  (List.range maxCols).map (fun i => "Column " ++ jsNatRepr i)

structure AppState where
  rawRows : List RawRow
  headerRow : Option (List String)
  metricsIdxs : List Nat
  primaryMetricIdx : Option Nat
  aggregation : Aggregation
  dateIdx : Option Nat
  monthBucket : Bool
  dateFormat : DateFormat
  selectedDims : List Nat
  dimSearch : String
  topN : Nat
  seriesVisible : List (String × Bool)
  filterRules : List FilterRule
  warnings : List String

/-- One file-drop load cycle of the aggregation component. The XLSX decode
and the first-row header split (library work preceding every state update
in the source) enter as an Except value; error models the catch branch. -/
def loadStep (st : AppState) (decoded : Except String (List RawRow × Option (List String))) :
    AppState :=
  match decoded with
  | .error err => { st with warnings := ["Failed to parse Excel file: " ++ err] }
  | .ok (rows, firstRow) =>
    { st with
      headerRow := some (firstRow.getD (createDefaultHeader rows)),
      rawRows := rows,
      metricsIdxs := [],
      primaryMetricIdx := none,
      aggregation := .sum,
      dateIdx := none,
      monthBucket := true,
      dateFormat := .auto,
      selectedDims := [],
      dimSearch := "",
      topN := 6,
      seriesVisible := [],
      warnings := [] }

structure CostData where
  date : String
  cost : ℚ
  service : String
deriving DecidableEq

structure XAppState where
  rawRows : List RawRow
  headerRow : Option (List String)
  mapping : Option ColMapping
  data : List CostData
  previewRows : List CostData
  warnings : List String

/-- One load cycle of the preset-mapping component: on success the column
mapping is guessed and the rows parsed into CostData; on decode failure only
the warning list changes. -/
def xLoadStep (st : XAppState) (decoded : Except String (List RawRow × Option (List String))) :
    XAppState :=
  match decoded with
  | .error err => { st with warnings := ["Failed to parse file: " ++ err] }
  | .ok (rows, firstRow) =>
    let guessed := detectFromData firstRow rows
    let parsed := rows.map (fun r =>
      { date := cellStr r guessed.dateIdx,
        cost := (jsParseFloat (cellStr r guessed.costIdx)).getD 0,
        service := cellStr r guessed.serviceIdx : CostData })
    { st with
      rawRows := rows,
      headerRow := firstRow,
      mapping := some guessed,
      data := parsed,
      previewRows := parsed.take 10,
      warnings := [] }

/-- The example grid of the specification. -/
def exampleGrid : List RawRow :=
  [[some "2024-01-05", some "10", some "VM"],
   [some "2024-01-20", some "5", some "VM"],
   [some "2024-02-01", some "7", some "Storage"]]

/-! Helper lemmas about the list and string utilities. -/

lemma firstIdxOf_lt_length {α : Type} [DecidableEq α] (a : α) :
    ∀ (l : List α) (i : Nat), firstIdxOf a l = some i → i < l.length := by
  intro l
  induction l with
  | nil => intro i h; simp [firstIdxOf] at h
  | cons b t ih =>
    intro i h
    by_cases hb : b = a
    · simp [firstIdxOf, hb] at h
      simp [List.length_cons]
      omega
    · simp [firstIdxOf, hb] at h
      obtain ⟨j, hj, rfl⟩ := h
      have := ih j hj
      simp [List.length_cons]
      omega

lemma firstIdxOf_isSome_of_mem {α : Type} [DecidableEq α] {a : α} :
    ∀ {l : List α}, a ∈ l → ∃ i, firstIdxOf a l = some i := by
  intro l
  induction l with
  | nil => intro h; simp at h
  | cons b t ih =>
    intro h
    by_cases hb : b = a
    · exact ⟨0, by simp [firstIdxOf, hb]⟩
    · have : a ∈ t := by
        rcases List.mem_cons.mp h with h1 | h1
        · exact absurd h1.symm hb
        · exact h1
      obtain ⟨i, hi⟩ := ih this
      exact ⟨i + 1, by simp [firstIdxOf, hb, hi]⟩

lemma foldl_max_mem : ∀ (l : List Nat) (a : Nat), l.foldl max a = a ∨ l.foldl max a ∈ l := by
  intro l
  induction l with
  | nil => intro a; left; rfl
  | cons b t ih =>
    intro a
    rw [List.foldl_cons]
    rcases ih (max a b) with h | h
    · rw [h]
      rcases max_choice a b with h1 | h1
      · left; exact h1
      · right; rw [h1]; exact List.mem_cons_self b t
    · right; exact List.mem_cons_of_mem b h

lemma listMax_mem (l : List Nat) (h : l ≠ []) : listMax l ∈ l := by
  match l with
  | b :: t =>
    unfold listMax
    rw [List.foldl_cons]
    have hz : max 0 b = b := Nat.zero_max b
    rw [hz]
    rcases foldl_max_mem t b with h1 | h1
    · rw [h1]; exact List.mem_cons_self b t
    · exact List.mem_cons_of_mem b h1

lemma listMax_replicate_zero : ∀ (n : Nat), listMax (List.replicate n 0) = 0 := by
  intro n
  induction n with
  | zero => rfl
  | succ k ih =>
    rw [List.replicate_succ]
    unfold listMax at ih ⊢
    rw [List.foldl_cons]
    simpa using ih

lemma headD_filter_range_lt (cols : Nat) (p : Nat → Bool) (h : 0 < cols) :
    ((List.range cols).filter p).headD 0 < cols := by
  cases hf : (List.range cols).filter p with
  | nil => simpa using h
  | cons a t =>
    have ha : a ∈ (List.range cols).filter p := by rw [hf]; exact List.mem_cons_self a t
    have := (List.mem_filter.mp ha).1
    simpa using List.mem_range.mp this

/-! Helper lemmas about the aggregation table. -/

/-- Total of the per-entry sums of an aggregation table. -/
def sumS (m : List (String × ℚ × Nat)) : ℚ := (m.map (fun e => e.2.1)).sum

/-- Total of the per-entry counts of an aggregation table. -/
def sumC (m : List (String × ℚ × Nat)) : Nat := (m.map (fun e => e.2.2)).sum

lemma sumS_updTot : ∀ (m : List (String × ℚ × Nat)) (k : String) (v : ℚ),
    sumS (updTot m k v) = sumS m + v := by
  intro m k v
  induction m with
  | nil => simp [updTot, sumS]
  | cons e t ih =>
    obtain ⟨k0, s0, c0⟩ := e
    by_cases h : k0 = k
    · simp [updTot, h, sumS]
      ring
    · simp [updTot, h, sumS] at ih ⊢
      rw [ih]
      ring

lemma sumC_updTot : ∀ (m : List (String × ℚ × Nat)) (k : String) (v : ℚ),
    sumC (updTot m k v) = sumC m + 1 := by
  intro m k v
  induction m with
  | nil => simp [updTot, sumC]
  | cons e t ih =>
    obtain ⟨k0, s0, c0⟩ := e
    by_cases h : k0 = k
    · simp [updTot, h, sumC]
      ring
    · simp [updTot, h, sumC] at ih ⊢
      omega

lemma mem_updTot : ∀ (m : List (String × ℚ × Nat)) (k : String) (v : ℚ) (e),
    e ∈ updTot m k v →
    e ∈ m ∨ e.2.1 = v ∨ ∃ f ∈ m, e.2.1 = f.2.1 + v := by
  intro m k v
  induction m with
  | nil =>
    intro e he
    simp [updTot] at he
    subst he
    right; left; rfl
  | cons f t ih =>
    obtain ⟨k0, s0, c0⟩ := f
    intro e he
    by_cases h : k0 = k
    · simp only [updTot, h, if_pos] at he
      rcases List.mem_cons.mp he with h1 | h1
      · subst h1
        right; right
        exact ⟨(k0, s0, c0), List.mem_cons_self _ _, rfl⟩
      · left; exact List.mem_cons_of_mem _ h1
    · simp only [updTot, h, if_neg, not_false_iff] at he
      rcases List.mem_cons.mp he with h1 | h1
      · left; rw [h1]; exact List.mem_cons_self _ _
      · rcases ih e h1 with h2 | h2 | ⟨g, hg, h3⟩
        · left; exact List.mem_cons_of_mem _ h2
        · right; left; exact h2
        · right; right; exact ⟨g, List.mem_cons_of_mem _ hg, h3⟩

lemma sumS_foldStep (keyOf : RawRow → String) (valOf : RawRow → ℚ) (rules : List FilterRule) :
    ∀ (rows : List RawRow) (m : List (String × ℚ × Nat)),
    sumS (rows.foldl
        (fun m row => if matchesRow row rules then updTot m (keyOf row) (valOf row) else m) m)
      = sumS m + ((rows.filter (fun r => matchesRow r rules)).map valOf).sum := by
  intro rows
  induction rows with
  | nil => intro m; simp
  | cons r t ih =>
    intro m
    rw [List.foldl_cons, List.filter_cons]
    by_cases h : matchesRow r rules
    · simp only [h, if_pos, List.map_cons, List.sum_cons]
      rw [ih, sumS_updTot]
      ring
    · simp only [h, if_neg, Bool.false_eq_true, not_false_iff]
      rw [ih]

lemma sumC_foldStep (keyOf : RawRow → String) (valOf : RawRow → ℚ) (rules : List FilterRule) :
    ∀ (rows : List RawRow) (m : List (String × ℚ × Nat)),
    sumC (rows.foldl
        (fun m row => if matchesRow row rules then updTot m (keyOf row) (valOf row) else m) m)
      = sumC m + (rows.filter (fun r => matchesRow r rules)).length := by
  intro rows
  induction rows with
  | nil => intro m; simp
  | cons r t ih =>
    intro m
    rw [List.foldl_cons, List.filter_cons]
    by_cases h : matchesRow r rules
    · simp only [h, if_pos, List.length_cons]
      rw [ih, sumC_updTot]
      omega
    · simp only [h, if_neg, Bool.false_eq_true, not_false_iff]
      rw [ih]

lemma foldStep_sum_nonneg (keyOf : RawRow → String) (valOf : RawRow → ℚ) (rules : List FilterRule) :
    ∀ (rows : List RawRow) (m : List (String × ℚ × Nat)),
    (∀ r ∈ rows, 0 ≤ valOf r) → (∀ e ∈ m, 0 ≤ e.2.1) →
    ∀ e ∈ rows.foldl
        (fun m row => if matchesRow row rules then updTot m (keyOf row) (valOf row) else m) m,
      0 ≤ e.2.1 := by
  intro rows
  induction rows with
  | nil => intro m _ hm e he; exact hm e he
  | cons r t ih =>
    intro m hrows hm e he
    rw [List.foldl_cons] at he
    by_cases h : matchesRow r rules
    · rw [if_pos h] at he
      refine ih (updTot m (keyOf r) (valOf r)) (fun x hx => hrows x (List.mem_cons_of_mem r hx)) ?_ e he
      intro f hf
      have hv : 0 ≤ valOf r := hrows r (List.mem_cons_self r t)
      rcases mem_updTot m (keyOf r) (valOf r) f hf with h1 | h1 | ⟨g, hg, h2⟩
      · exact hm f h1
      · rw [h1]; exact hv
      · rw [h2]; exact add_nonneg (hm g hg) hv
    · rw [if_neg h] at he
      exact ih m (fun x hx => hrows x (List.mem_cons_of_mem r hx)) hm e he

lemma mem_insertByKey : ∀ (l : List (String × ℚ × Nat)) (e x : String × ℚ × Nat),
    x ∈ insertByKey e l → x = e ∨ x ∈ l := by
  intro l
  induction l with
  | nil => intro e x h; simp [insertByKey] at h; left; exact h
  | cons f t ih =>
    intro e x h
    by_cases hf : f.1 ≤ e.1
    · rw [show insertByKey e (f :: t) = f :: insertByKey e t by
        simp [insertByKey, hf]] at h
      rcases List.mem_cons.mp h with h1 | h1
      · right; rw [h1]; exact List.mem_cons_self f t
      · rcases ih e x h1 with h2 | h2
        · left; exact h2
        · right; exact List.mem_cons_of_mem f h2
    · rw [show insertByKey e (f :: t) = e :: f :: t by simp [insertByKey, hf]] at h
      rcases List.mem_cons.mp h with h1 | h1
      · left; exact h1
      · right; exact h1

lemma mem_sortByKey_aux : ∀ (l acc : List (String × ℚ × Nat)) (x : String × ℚ × Nat),
    x ∈ l.foldl (fun acc e => insertByKey e acc) acc → x ∈ acc ∨ x ∈ l := by
  intro l
  induction l with
  | nil => intro acc x h; left; exact h
  | cons e t ih =>
    intro acc x h
    rw [List.foldl_cons] at h
    rcases ih (insertByKey e acc) x h with h1 | h1
    · rcases mem_insertByKey acc e x h1 with h2 | h2
      · right; rw [h2]; exact List.mem_cons_self e t
      · left; exact h2
    · right; exact List.mem_cons_of_mem e h1

lemma mem_sortByKey (l : List (String × ℚ × Nat)) (x : String × ℚ × Nat)
    (h : x ∈ sortByKey l) : x ∈ l := by
  rcases mem_sortByKey_aux l [] x h with h1 | h1
  · simp at h1
  · exact h1

lemma finalVal_nonneg (agg : Aggregation) (s : ℚ) (c : Nat) (h : 0 ≤ s) :
    0 ≤ finalVal agg s c := by
  cases agg with
  | sum => exact h
  | count => exact Nat.cast_nonneg c
  | avg =>
    unfold finalVal
    by_cases hc : c = 0
    · simp [hc]
    · rw [if_neg hc]
      exact div_nonneg h (Nat.cast_nonneg c)

lemma runCum_pairwise (agg : Aggregation) :
    ∀ (l : List (String × ℚ × Nat)) (acc : ℚ),
    (∀ e ∈ l, 0 ≤ finalVal agg e.2.1 e.2.2) →
    List.Pairwise (· ≤ ·) ((runCum agg acc l).map Prod.snd)
    ∧ ∀ x ∈ (runCum agg acc l).map Prod.snd, acc ≤ x := by
  intro l
  induction l with
  | nil => intro acc _; constructor <;> simp [runCum]
  | cons e t ih =>
    obtain ⟨dte, s, c⟩ := e
    intro acc hl
    have hv : 0 ≤ finalVal agg s c := hl (dte, s, c) (List.mem_cons_self _ _)
    have ht : ∀ e ∈ t, 0 ≤ finalVal agg e.2.1 e.2.2 :=
      fun e he => hl e (List.mem_cons_of_mem _ he)
    obtain ⟨ihp, ihb⟩ := ih (acc + finalVal agg s c) ht
    constructor
    · rw [show runCum agg acc ((dte, s, c) :: t)
          = (dte, acc + finalVal agg s c) :: runCum agg (acc + finalVal agg s c) t from rfl]
      rw [List.map_cons]
      exact List.pairwise_cons.mpr ⟨fun x hx => ihb x hx, ihp⟩
    · rw [show runCum agg acc ((dte, s, c) :: t)
          = (dte, acc + finalVal agg s c) :: runCum agg (acc + finalVal agg s c) t from rfl]
      rw [List.map_cons]
      intro x hx
      rcases List.mem_cons.mp hx with h1 | h1
      · rw [h1]; exact le_add_of_nonneg_right hv
      · exact le_trans (le_add_of_nonneg_right hv : acc ≤ acc + finalVal agg s c) (ihb x h1)

/-! Helper lemmas about digits and decimal representations. -/

lemma digitChar_isDigit {k : Nat} (h : k < 10) : (Nat.digitChar k).isDigit = true := by
  interval_cases k <;> decide

lemma charVal_digitChar {k : Nat} (h : k < 10) : charVal (Nat.digitChar k) = k := by
  interval_cases k <;> decide

lemma digitChar_not_ws {k : Nat} (h : k < 10) : jsWhitespaceChar (Nat.digitChar k) = false := by
  interval_cases k <;> decide

lemma digits4_digitChar {a b c d : Nat} (h1 : a < 10) (h2 : b < 10) (h3 : c < 10) (h4 : d < 10) :
    digits4 (Nat.digitChar a) (Nat.digitChar b) (Nat.digitChar c) (Nat.digitChar d)
      = some (((a * 10 + b) * 10 + c) * 10 + d) := by
  simp [digits4, digitChar_isDigit, h1, h2, h3, h4, charVal_digitChar]

lemma digits2_digitChar {a b : Nat} (h1 : a < 10) (h2 : b < 10) :
    digits2 (Nat.digitChar a) (Nat.digitChar b) = some (10 * a + b) := by
  simp [digits2, digitChar_isDigit, h1, h2, charVal_digitChar]

lemma str_mk_append (l1 l2 : List Char) : String.mk l1 ++ String.mk l2 = String.mk (l1 ++ l2) :=
  rfl

lemma dropWhile_eq_self_of_all (p : Char → Bool) (l : List Char)
    (h : ∀ c ∈ l, p c = false) : l.dropWhile p = l := by
  cases l with
  | nil => rfl
  | cons a t =>
    rw [List.dropWhile_cons, h a (List.mem_cons_self a t)]
    simp

lemma jsTrim_eq_self_of (s : String) (h : ∀ c ∈ s.data, jsWhitespaceChar c = false) :
    jsTrim s = s := by
  unfold jsTrim
  rw [dropWhile_eq_self_of_all _ _ h]
  rw [dropWhile_eq_self_of_all _ _ (fun c hc => h c (List.mem_reverse.mp hc))]
  rw [List.reverse_reverse]

lemma jsNatReprAux_congr : ∀ (n : Nat), ∀ (f1 f2 : Nat), n < f1 → n < f2 →
    jsNatReprAux f1 n = jsNatReprAux f2 n := by
  intro n
  induction n using Nat.strong_induction_on with
  | _ n ih =>
    intro f1 f2 h1 h2
    obtain ⟨g1, rfl⟩ : ∃ k, f1 = k + 1 := ⟨f1 - 1, by omega⟩
    obtain ⟨g2, rfl⟩ : ∃ k, f2 = k + 1 := ⟨f2 - 1, by omega⟩
    by_cases h : n < 10
    · simp [jsNatReprAux, h]
    · simp only [jsNatReprAux, h, if_neg, if_false]
      rw [ih (n / 10) (Nat.div_lt_self (by omega) (by omega)) g1 g2 (by omega) (by omega)]

lemma jsNatRepr_step (n : Nat) :
    jsNatRepr n = if n < 10 then String.mk [Nat.digitChar n]
      else jsNatRepr (n / 10) ++ String.mk [Nat.digitChar (n % 10)] := by
  by_cases h : n < 10
  · rw [if_pos h]
    unfold jsNatRepr
    simp [jsNatReprAux, h]
  · rw [if_neg h]
    show String.mk (jsNatReprAux (n + 1) n)
      = String.mk (jsNatReprAux (n / 10 + 1) (n / 10)) ++ String.mk [Nat.digitChar (n % 10)]
    rw [str_mk_append]
    have huf : jsNatReprAux (n + 1) n = jsNatReprAux n (n / 10) ++ [Nat.digitChar (n % 10)] := by
      simp [jsNatReprAux, h]
    rw [huf, jsNatReprAux_congr (n / 10) n (n / 10 + 1) (by omega) (by omega)]

lemma jsNatRepr_one_digit {n : Nat} (h : n < 10) : jsNatRepr n = String.mk [Nat.digitChar n] := by
  rw [jsNatRepr_step, if_pos h]

lemma jsNatRepr_two_digits {n : Nat} (h1 : 10 ≤ n) (h2 : n ≤ 99) :
    jsNatRepr n = String.mk [Nat.digitChar (n / 10 % 10), Nat.digitChar (n % 10)] := by
  rw [jsNatRepr_step, if_neg (by omega), jsNatRepr_one_digit (show n / 10 < 10 by omega)]
  rw [str_mk_append]
  have : n / 10 % 10 = n / 10 := Nat.mod_eq_of_lt (by omega)
  rw [this]
  rfl

lemma jsNatRepr_four_digits {n : Nat} (h1 : 1000 ≤ n) (h2 : n ≤ 9999) :
    jsNatRepr n = String.mk [Nat.digitChar (n / 1000 % 10), Nat.digitChar (n / 100 % 10),
      Nat.digitChar (n / 10 % 10), Nat.digitChar (n % 10)] := by
  rw [jsNatRepr_step, if_neg (by omega)]
  rw [jsNatRepr_step (n / 10), if_neg (by omega)]
  rw [jsNatRepr_step (n / 10 / 10), if_neg (by omega)]
  rw [jsNatRepr_one_digit (show n / 10 / 10 / 10 < 10 by omega)]
  rw [str_mk_append, str_mk_append, str_mk_append]
  have e1 : n / 10 / 10 / 10 = n / 1000 % 10 := by omega
  have e2 : n / 10 / 10 % 10 = n / 100 % 10 := by omega
  rw [e1, e2]
  rfl

lemma jsPadStart2_one (c : Char) : jsPadStart2 (String.mk [c]) = String.mk ['0', c] := by
  simp only [jsPadStart2, List.length_cons, List.length_nil]
  rfl

lemma jsPadStart2_two (c d : Char) : jsPadStart2 (String.mk [c, d]) = String.mk [c, d] := by
  simp [jsPadStart2]

/-! The YYYY-MM strings of claim C4. -/

/-- The YYYY-MM string with the given numeric year and month; every
four-digit-year, two-digit-month string arises as ymStr y m with y ≤ 9999
and m ≤ 99. -/
def ymStr (y m : Nat) : String :=
  String.mk [Nat.digitChar (y / 1000 % 10), Nat.digitChar (y / 100 % 10),
    Nat.digitChar (y / 10 % 10), Nat.digitChar (y % 10), '-',
    Nat.digitChar (m / 10 % 10), Nat.digitChar (m % 10)]

lemma jsTrim_ymStr (y m : Nat) : jsTrim (ymStr y m) = ymStr y m := by
  apply jsTrim_eq_self_of
  intro c hc
  have hd : (ymStr y m).data
      = [Nat.digitChar (y / 1000 % 10), Nat.digitChar (y / 100 % 10),
         Nat.digitChar (y / 10 % 10), Nat.digitChar (y % 10), '-',
         Nat.digitChar (m / 10 % 10), Nat.digitChar (m % 10)] := rfl
  rw [hd] at hc
  simp only [List.mem_cons, List.not_mem_nil, or_false] at hc
  rcases hc with rfl | rfl | rfl | rfl | rfl | rfl | rfl
  · exact digitChar_not_ws (by omega)
  · exact digitChar_not_ws (by omega)
  · exact digitChar_not_ws (by omega)
  · exact digitChar_not_ws (by omega)
  · decide
  · exact digitChar_not_ws (by omega)
  · exact digitChar_not_ws (by omega)

lemma isoParse_seven (y1 y2 y3 y4 s1 m1 m2 : Char) :
    isoParse [y1, y2, y3, y4, s1, m1, m2]
      = (if s1 = '-' then
          match digits4 y1 y2 y3 y4, digits2 m1 m2 with
          | some y, some m => if 1 ≤ m ∧ m ≤ 12 then some (y, m, 1) else none
          | _, _ => none
        else none) := rfl

lemma isoParse_ymStr (y m : Nat) (hy : y ≤ 9999) (hm : m ≤ 99) :
    isoParse (ymStr y m).data = if 1 ≤ m ∧ m ≤ 12 then some (y, m, 1) else none := by
  have e4 : digits4 (Nat.digitChar (y / 1000 % 10)) (Nat.digitChar (y / 100 % 10))
      (Nat.digitChar (y / 10 % 10)) (Nat.digitChar (y % 10)) = some y := by
    rw [digits4_digitChar (by omega) (by omega) (by omega) (by omega)]
    congr 1
    omega
  have e2 : digits2 (Nat.digitChar (m / 10 % 10)) (Nat.digitChar (m % 10)) = some m := by
    rw [digits2_digitChar (by omega) (by omega)]
    congr 1
    omega
  show isoParse [Nat.digitChar (y / 1000 % 10), Nat.digitChar (y / 100 % 10),
    Nat.digitChar (y / 10 % 10), Nat.digitChar (y % 10), '-',
    Nat.digitChar (m / 10 % 10), Nat.digitChar (m % 10)] = _
  rw [isoParse_seven, if_pos rfl, e4, e2]

lemma matchYYYYM_ymStr (y m : Nat) :
    matchYYYYM (ymStr y m)
      = some (String.mk [Nat.digitChar (y / 1000 % 10), Nat.digitChar (y / 100 % 10),
          Nat.digitChar (y / 10 % 10), Nat.digitChar (y % 10)],
        String.mk [Nat.digitChar (m / 10 % 10), Nat.digitChar (m % 10)]) := by
  show (if (Nat.digitChar (y / 1000 % 10)).isDigit && (Nat.digitChar (y / 100 % 10)).isDigit
        && (Nat.digitChar (y / 10 % 10)).isDigit && (Nat.digitChar (y % 10)).isDigit
        && (('-' : Char) == '-' || ('-' : Char) == '/') then
      if (Nat.digitChar (m / 10 % 10)).isDigit then
        if (Nat.digitChar (m % 10)).isDigit then
          some (String.mk [Nat.digitChar (y / 1000 % 10), Nat.digitChar (y / 100 % 10),
              Nat.digitChar (y / 10 % 10), Nat.digitChar (y % 10)],
            String.mk [Nat.digitChar (m / 10 % 10), Nat.digitChar (m % 10)])
        else some (String.mk [Nat.digitChar (y / 1000 % 10), Nat.digitChar (y / 100 % 10),
              Nat.digitChar (y / 10 % 10), Nat.digitChar (y % 10)],
            String.mk [Nat.digitChar (m / 10 % 10)])
      else none
    else none) = _
  rw [digitChar_isDigit (show y / 1000 % 10 < 10 by omega),
    digitChar_isDigit (show y / 100 % 10 < 10 by omega),
    digitChar_isDigit (show y / 10 % 10 < 10 by omega),
    digitChar_isDigit (show y % 10 < 10 by omega),
    digitChar_isDigit (show m / 10 % 10 < 10 by omega),
    digitChar_isDigit (show m % 10 < 10 by omega)]
  simp

lemma ymStr_ne_empty (y m : Nat) : ymStr y m ≠ "" := by
  intro hcon
  have := congrArg String.data hcon
  simp [ymStr] at this

lemma parseAuto_ymStr (y m : Nat) (hy : y ≤ 9999) (hm : m ≤ 99) :
    parseDateWithFormat (ymStr y m) .auto
      = if 1 ≤ m ∧ m ≤ 12 then some (((y : Nat) : Int), m, 1) else none := by
  show (jsNewDateAuto (ymStr y m)).map (fun p => ((p.1 : Int), p.2.1, p.2.2)) = _
  unfold jsNewDateAuto
  rw [isoParse_ymStr y m hy hm]
  by_cases hv : 1 ≤ m ∧ m ≤ 12
  · rw [if_pos hv, if_pos hv]
    rfl
  · rw [if_neg hv, if_neg hv]
    rfl

/-- C4: bucketing a YYYY-MM string with auto format and month granularity
returns the same string for years 1000-9999 (any two-digit month part: valid
months go through the date path, the rest through the fallback path). The
runtime ISO date parse is modeled with local timezone UTC. -/
theorem claim4_month_bucket_idem (y m : Nat) (hy1 : 1000 ≤ y) (hy2 : y ≤ 9999) (hm : m ≤ 99) :
    formatDateBucket (some (ymStr y m)) true .auto = ymStr y m := by
  show formatDateBucketTrimmed (jsTrim (ymStr y m)) true .auto = ymStr y m
  rw [jsTrim_ymStr]
  unfold formatDateBucketTrimmed
  rw [if_neg (ymStr_ne_empty y m)]
  rw [parseAuto_ymStr y m hy2 hm]
  by_cases hv : 1 ≤ m ∧ m ≤ 12
  · rw [if_pos hv]
    show jsIntRepr ((y : Nat) : Int) ++ "-" ++ jsPadStart2 (jsNatRepr m) = ymStr y m
    have hi : jsIntRepr ((y : Nat) : Int) = jsNatRepr y := by
      unfold jsIntRepr
      rw [if_neg (by omega)]
      congr 1
    rw [hi, jsNatRepr_four_digits hy1 hy2]
    by_cases hm10 : m < 10
    · rw [jsNatRepr_one_digit hm10, jsPadStart2_one]
      have h1 : m / 10 % 10 = 0 := by omega
      have h2 : m % 10 = m := by omega
      unfold ymStr
      rw [h1, h2]
      rfl
    · rw [jsNatRepr_two_digits (by omega) (by omega), jsPadStart2_two]
      unfold ymStr
      rfl
  · rw [if_neg hv]
    rw [matchYYYYM_ymStr y m]
    show String.mk [Nat.digitChar (y / 1000 % 10), Nat.digitChar (y / 100 % 10),
        Nat.digitChar (y / 10 % 10), Nat.digitChar (y % 10)] ++ "-"
        ++ jsPadStart2 (String.mk [Nat.digitChar (m / 10 % 10), Nat.digitChar (m % 10)])
      = ymStr y m
    rw [jsPadStart2_two]
    unfold ymStr
    rfl

/-- C4 counterexample: the claim fails for four-digit years with leading
zeros; the year is re-serialized without padding, so 0999-01 buckets to
999-01, not to itself. -/
theorem claim4_counterexample :
    formatDateBucket (some "0999-01") true DateFormat.auto = "999-01"
    ∧ formatDateBucket (some "0999-01") true DateFormat.auto ≠ "0999-01" := by
  constructor
  · decide
  · decide

/-- C4 witness: the amended statement applied at 2024-01. -/
theorem claim4_witness :
    ymStr 2024 1 = "2024-01"
    ∧ formatDateBucket (some (ymStr 2024 1)) true DateFormat.auto = ymStr 2024 1 :=
  ⟨by decide, claim4_month_bucket_idem 2024 1 (by decide) (by decide) (by decide)⟩

/-- C5: the date bucketer is total; empty or whitespace-only input returns
the empty string; input that fails to parse returns the zero-padded YYYY-MM
prefix when a leading YYYY-M pattern exists, else the trimmed original
string; in particular n/a is returned unchanged under every format. -/
theorem claim5_unparseable_fallback (v : Option String) (format : DateFormat) (b : Bool) :
    (jsTrim (v.getD "") = "" → formatDateBucket v b format = "")
    ∧ (parseDateWithFormat (jsTrim (v.getD "")) format = none →
        formatDateBucket v b format =
          match matchYYYYM (jsTrim (v.getD "")) with
          | some p => p.1 ++ "-" ++ jsPadStart2 p.2
          | none => jsTrim (v.getD ""))
    ∧ formatDateBucket (some "n/a") b format = "n/a" := by
  refine ⟨?_, ?_, ?_⟩
  · intro h
    show formatDateBucketTrimmed (jsTrim (v.getD "")) b format = ""
    rw [h]
    rfl
  · intro h
    show formatDateBucketTrimmed (jsTrim (v.getD "")) b format = _
    by_cases hs : jsTrim (v.getD "") = ""
    · rw [hs]
      rw [show matchYYYYM "" = none from rfl]
      rfl
    · unfold formatDateBucketTrimmed
      rw [if_neg hs, h]
  · cases format <;> cases b <;> rfl

/-- C5 witness: whitespace-only input, and an unparseable input with a
leading YYYY-M prefix, under auto format. -/
theorem claim5_witness :
    jsTrim ((some "   ").getD "") = ""
    ∧ formatDateBucket (some "   ") true DateFormat.auto = ""
    ∧ parseDateWithFormat (jsTrim ((some " 2024-1x").getD "")) DateFormat.auto = none
    ∧ formatDateBucket (some " 2024-1x") true DateFormat.auto = "2024-01" := by
  refine ⟨by decide, (claim5_unparseable_fallback (some "   ") .auto true).1 (by decide),
    by decide, ?_⟩
  have h := (claim5_unparseable_fallback (some " 2024-1x") .auto true).2.1 (by decide)
  rw [h]
  decide

/-- C7: an empty rule set passes every row; a row passes a rule set exactly
when it passes every rule of the set individually (logical AND); and the
equals-VM rule on column 2 of the example grid retains exactly its first two
rows. -/
theorem claim7_filter_conjunction (row : RawRow) (rules : List FilterRule) :
    matchesRow row [] = true
    ∧ (matchesRow row rules = true ↔ ∀ r ∈ rules, matchesRow row [r] = true)
    ∧ exampleGrid.filter (fun r => matchesRow r [⟨2, .equals, "VM"⟩]) = exampleGrid.take 2 := by
  refine ⟨rfl, ?_, by decide⟩
  unfold matchesRow
  simp [List.all_eq_true]

/-- C10: the contains and notContains operators are insensitive to the case
of the rule value (two values with equal lowercasings are interchangeable),
while equals and notEquals compare the stringified cell with the rule value
as exact, case-sensitive strings; contains compares lowercased needle
against lowercased cell. -/
theorem claim10_operator_case (row : RawRow) (i : Nat) (w w' : String) :
    (strLower w = strLower w' →
      matchesRow row [⟨i, .contains, w⟩] = matchesRow row [⟨i, .contains, w'⟩]
      ∧ matchesRow row [⟨i, .notContains, w⟩] = matchesRow row [⟨i, .notContains, w'⟩])
    ∧ (matchesRow row [⟨i, .equals, w⟩] = true ↔ cellStr row i = w)
    ∧ (matchesRow row [⟨i, .notEquals, w⟩] = true ↔ ¬cellStr row i = w)
    ∧ matchesRow row [⟨i, .contains, w⟩]
        = strIncludes (strLower (cellStr row i)) (strLower w) := by
  refine ⟨?_, ?_, ?_, ?_⟩
  · intro h
    constructor <;> simp [matchesRow, h]
  · simp [matchesRow]
  · simp [matchesRow]
  · simp [matchesRow]

/-- C10 witness: a mixed-case cell Vm with rule values VM and vm. -/
theorem claim10_witness :
    matchesRow [some "Vm"] [⟨0, .contains, "VM"⟩] = matchesRow [some "Vm"] [⟨0, .contains, "vm"⟩]
    ∧ (matchesRow [some "Vm"] [⟨0, .equals, "VM"⟩] = true ↔ cellStr [some "Vm"] 0 = "VM") :=
  ⟨((claim10_operator_case [some "Vm"] 0 "VM" "vm").1 (by decide)).1,
    (claim10_operator_case [some "Vm"] 0 "VM" "vm").2.1⟩

/-- C9 (amended): a failed decode leaves every data and selection field of
both loader variants untouched, and replaces the warning list with a single
decode-failure warning. -/
theorem claim9_failure_preserves_state (st : AppState) (xst : XAppState) (err : String) :
    (loadStep st (.error err)).rawRows = st.rawRows
    ∧ (loadStep st (.error err)).headerRow = st.headerRow
    ∧ (loadStep st (.error err)).metricsIdxs = st.metricsIdxs
    ∧ (loadStep st (.error err)).primaryMetricIdx = st.primaryMetricIdx
    ∧ (loadStep st (.error err)).aggregation = st.aggregation
    ∧ (loadStep st (.error err)).dateIdx = st.dateIdx
    ∧ (loadStep st (.error err)).monthBucket = st.monthBucket
    ∧ (loadStep st (.error err)).dateFormat = st.dateFormat
    ∧ (loadStep st (.error err)).selectedDims = st.selectedDims
    ∧ (loadStep st (.error err)).filterRules = st.filterRules
    ∧ (loadStep st (.error err)).warnings = ["Failed to parse Excel file: " ++ err]
    ∧ (xLoadStep xst (.error err)).rawRows = xst.rawRows
    ∧ (xLoadStep xst (.error err)).headerRow = xst.headerRow
    ∧ (xLoadStep xst (.error err)).mapping = xst.mapping
    ∧ (xLoadStep xst (.error err)).data = xst.data
    ∧ (xLoadStep xst (.error err)).previewRows = xst.previewRows
    ∧ (xLoadStep xst (.error err)).warnings = ["Failed to parse file: " ++ err] :=
  ⟨rfl, rfl, rfl, rfl, rfl, rfl, rfl, rfl, rfl, rfl, rfl, rfl, rfl, rfl, rfl, rfl, rfl⟩

/-- C9 counterexample: the failure branch does not append to the warning
list; a prior warning is discarded, so the claim's append behavior fails. -/
theorem claim9_counterexample :
    ¬ ((loadStep ⟨[], none, [], none, .sum, none, true, .auto, [], "", 6, [], [], ["old warning"]⟩
          (.error "boom")).warnings
        = ["old warning"] ++ ["Failed to parse Excel file: " ++ "boom"]) := by
  decide

/-- C2: under sum aggregation the total of the per-group values equals the
sum of the parsed metric values over the filtered rows, for every choice of
grouping dimensions (exact in ℚ, subsuming the floating-point tolerance). -/
theorem claim2_sum_totals (rows : List RawRow) (rules : List FilterRule)
    (selectedDims : List Nat) (metricIdx : Nat) :
    ((pieData rows rules selectedDims .sum metricIdx).map Prod.snd).sum
      = ((rows.filter (fun r => matchesRow r rules)).map
          (fun r => parseFloatSafe (getCell r metricIdx))).sum := by
  have h := sumS_foldStep
    (fun row => if selectedDims.length ≠ 0 then buildGroupKey row selectedDims else "All")
    (aggVal .sum metricIdx) rules rows []
  unfold pieData foldTotals
  unfold sumS at h
  rw [List.map_map]
  have hcomp : (Prod.snd ∘ fun e : String × ℚ × Nat => (e.1, finalVal .sum e.2.1 e.2.2))
      = fun e : String × ℚ × Nat => e.2.1 := rfl
  rw [hcomp]
  simp only [List.map_nil, List.sum_nil, zero_add] at h
  rw [h]
  rfl

/-- C3: count aggregation never reads the metric column (any two metric
indices give identical results) and totals the number of filtered rows;
sum and avg parse the metric cell with comma stripping, and a cell whose
string form fails to parse contributes exactly 0, never an error. -/
theorem claim3_count_and_leniency (rows : List RawRow) (rules : List FilterRule)
    (selectedDims : List Nat) (m1 m2 : Nat) :
    pieData rows rules selectedDims .count m1 = pieData rows rules selectedDims .count m2
    ∧ ((pieData rows rules selectedDims .count m1).map Prod.snd).sum
        = ((rows.filter (fun r => matchesRow r rules)).length : ℚ)
    ∧ (∀ v : Option String, jsParseFloat (stripCommas (v.getD "")) = none → parseFloatSafe v = 0)
    ∧ parseFloatSafe (some "1,234.5") = 2469 / 2 := by
  refine ⟨rfl, ?_, ?_, ?_⟩
  · have h := sumC_foldStep
      (fun row => if selectedDims.length ≠ 0 then buildGroupKey row selectedDims else "All")
      (aggVal .count m1) rules rows []
    unfold pieData foldTotals
    unfold sumC at h
    rw [List.map_map]
    have hcomp : (Prod.snd ∘ fun e : String × ℚ × Nat => (e.1, finalVal .count e.2.1 e.2.2))
        = fun e : String × ℚ × Nat => ((e.2.2 : Nat) : ℚ) := rfl
    rw [hcomp]
    simp only [List.map_nil, List.sum_nil, Nat.zero_add] at h
    rw [show (fun e : String × ℚ × Nat => ((e.2.2 : Nat) : ℚ))
        = (fun n : Nat => (n : ℚ)) ∘ (fun e : String × ℚ × Nat => e.2.2) from rfl]
    rw [← List.map_map]
    rw [← Nat.cast_list_sum]
    exact congrArg Nat.cast h
  · intro v h
    unfold parseFloatSafe
    rw [h]
  · unfold parseFloatSafe
    rw [show jsParseFloat (stripCommas ((some "1,234.5").getD ""))
      = some ((1 : ℚ) * (((1234 : Nat) : ℚ) + ((5 : Nat) : ℚ) / (10 : ℚ) ^ (1 : Nat)) * powTen 0)
      from rfl]
    norm_num [powTen]

/-- C3 witness: an unparseable metric cell contributes 0. -/
theorem claim3_witness : parseFloatSafe (some "n/a") = 0 :=
  (claim3_count_and_leniency [] [] [] 0 0).2.2.1 (some "n/a") (by decide)

/-! Classifier score lists, named for the range proofs. -/

/-- The per-column date scores of detectFromData. -/
def dateScoresOf (headerRow : Option (List String)) (rawRows : List RawRow) : List Nat :=
  (List.range (colsOf headerRow rawRows)).map
    (fun c => ((rawRows.take 10).filter (fun r => cellDateLike (getCell r c))).length)

/-- The per-column numeric scores of detectFromData. -/
def numScoresOf (headerRow : Option (List String)) (rawRows : List RawRow) : List Nat :=
  (List.range (colsOf headerRow rawRows)).map
    (fun c => ((rawRows.take 10).filter (fun r => cellNumericLike (getCell r c))).length)

lemma detectFromData_eq (headerRow : Option (List String)) (rawRows : List RawRow) :
    detectFromData headerRow rawRows
      = { dateIdx := (firstIdxOf (listMax (dateScoresOf headerRow rawRows))
            (dateScoresOf headerRow rawRows)).getD 0,
          costIdx := (firstIdxOf (listMax (numScoresOf headerRow rawRows))
            (numScoresOf headerRow rawRows)).getD 1,
          serviceIdx := ((List.range (colsOf headerRow rawRows)).filter
            (fun c => !(some c == firstIdxOf (listMax (dateScoresOf headerRow rawRows))
                (dateScoresOf headerRow rawRows))
              && !(some c == firstIdxOf (listMax (numScoresOf headerRow rawRows))
                (numScoresOf headerRow rawRows)))).headD 0 } := rfl

lemma idxOfMax_getD_lt (l : List Nat) (h : l ≠ []) (dflt : Nat) :
    (firstIdxOf (listMax l) l).getD dflt < l.length := by
  obtain ⟨i, hi⟩ := firstIdxOf_isSome_of_mem (listMax_mem l h)
  rw [hi]
  exact firstIdxOf_lt_length _ _ _ hi

lemma map_zero_eq_replicate {α : Type} (l : List α) :
    l.map (fun _ => (0 : Nat)) = List.replicate l.length 0 := by
  induction l with
  | nil => rfl
  | cons a t ih => simp [List.replicate_succ, ih]

lemma firstIdxOf_zero_replicate (n : Nat) (h : 0 < n) :
    firstIdxOf 0 (List.replicate n 0) = some 0 := by
  obtain ⟨k, rfl⟩ : ∃ k, n = k + 1 := ⟨n - 1, by omega⟩
  simp [List.replicate_succ, firstIdxOf]

/-- C1 (amended): whenever the computed column count is positive (header
length, else first-row length, else the default 3 on a fully empty grid),
all three guessed indices lie in [0, cols); and with no date-like or no
numeric-like cell in the sampled rows the date or cost choice defaults to
column 0. (When the computed column count is 0 the cost fallback is the
out-of-range column 1; see the counterexample.) -/
theorem claim1_classifier_range (headerRow : Option (List String)) (rawRows : List RawRow)
    (h : 0 < colsOf headerRow rawRows) :
    ((detectFromData headerRow rawRows).dateIdx < colsOf headerRow rawRows
      ∧ (detectFromData headerRow rawRows).costIdx < colsOf headerRow rawRows
      ∧ (detectFromData headerRow rawRows).serviceIdx < colsOf headerRow rawRows)
    ∧ ((∀ r ∈ rawRows.take 10, ∀ c < colsOf headerRow rawRows,
          cellDateLike (getCell r c) = false) →
        (detectFromData headerRow rawRows).dateIdx = 0)
    ∧ ((∀ r ∈ rawRows.take 10, ∀ c < colsOf headerRow rawRows,
          cellNumericLike (getCell r c) = false) →
        (detectFromData headerRow rawRows).costIdx = 0) := by
  have hdlen : (dateScoresOf headerRow rawRows).length = colsOf headerRow rawRows := by
    simp [dateScoresOf]
  have hnlen : (numScoresOf headerRow rawRows).length = colsOf headerRow rawRows := by
    simp [numScoresOf]
  have hdne : dateScoresOf headerRow rawRows ≠ [] := by
    intro hc
    rw [hc] at hdlen
    simp at hdlen
    omega
  have hnne : numScoresOf headerRow rawRows ≠ [] := by
    intro hc
    rw [hc] at hnlen
    simp at hnlen
    omega
  refine ⟨⟨?_, ?_, ?_⟩, ?_, ?_⟩
  · rw [detectFromData_eq]
    rw [← hdlen]
    exact idxOfMax_getD_lt _ hdne 0
  · rw [detectFromData_eq]
    rw [← hnlen]
    exact idxOfMax_getD_lt _ hnne 1
  · rw [detectFromData_eq]
    exact headD_filter_range_lt _ _ h
  · intro hall
    rw [detectFromData_eq]
    have hz : dateScoresOf headerRow rawRows
        = List.replicate (colsOf headerRow rawRows) 0 := by
      unfold dateScoresOf
      have hcongr : ∀ c ∈ List.range (colsOf headerRow rawRows),
          ((rawRows.take 10).filter (fun r => cellDateLike (getCell r c))).length
            = (fun _ : Nat => (0 : Nat)) c := by
        intro c hc
        have hc' := List.mem_range.mp hc
        have hfilter : (rawRows.take 10).filter (fun r => cellDateLike (getCell r c)) = [] := by
          rw [List.filter_eq_nil_iff]
          intro r hr
          simp [hall r hr c hc']
        rw [hfilter]
        rfl
      rw [List.map_congr_left hcongr, map_zero_eq_replicate]
      simp
    show (firstIdxOf (listMax (dateScoresOf headerRow rawRows))
        (dateScoresOf headerRow rawRows)).getD 0 = 0
    rw [hz, listMax_replicate_zero, firstIdxOf_zero_replicate _ h]
    rfl
  · intro hall
    rw [detectFromData_eq]
    have hz : numScoresOf headerRow rawRows
        = List.replicate (colsOf headerRow rawRows) 0 := by
      unfold numScoresOf
      have hcongr : ∀ c ∈ List.range (colsOf headerRow rawRows),
          ((rawRows.take 10).filter (fun r => cellNumericLike (getCell r c))).length
            = (fun _ : Nat => (0 : Nat)) c := by
        intro c hc
        have hc' := List.mem_range.mp hc
        have hfilter : (rawRows.take 10).filter (fun r => cellNumericLike (getCell r c)) = [] := by
          rw [List.filter_eq_nil_iff]
          intro r hr
          simp [hall r hr c hc']
        rw [hfilter]
        rfl
      rw [List.map_congr_left hcongr, map_zero_eq_replicate]
      simp
    show (firstIdxOf (listMax (numScoresOf headerRow rawRows))
        (numScoresOf headerRow rawRows)).getD 1 = 0
    rw [hz, listMax_replicate_zero, firstIdxOf_zero_replicate _ h]
    rfl

/-- C1 witness: an all-text two-column grid with no header; the indices are
in range and the date and cost choices default to column 0. -/
theorem claim1_witness :
    0 < colsOf none [[some "foo", some "bar"]]
    ∧ (detectFromData none [[some "foo", some "bar"]]).dateIdx
        < colsOf none [[some "foo", some "bar"]]
    ∧ (detectFromData none [[some "foo", some "bar"]]).costIdx
        < colsOf none [[some "foo", some "bar"]]
    ∧ (detectFromData none [[some "foo", some "bar"]]).serviceIdx
        < colsOf none [[some "foo", some "bar"]]
    ∧ (detectFromData none [[some "foo", some "bar"]]).dateIdx = 0
    ∧ (detectFromData none [[some "foo", some "bar"]]).costIdx = 0 := by
  have h := claim1_classifier_range none [[some "foo", some "bar"]] (by decide)
  exact ⟨by decide, h.1.1, h.1.2.1, h.1.2.2, h.2.1 (by decide), h.2.2 (by decide)⟩

/-- C1 counterexample: a grid whose only row is empty has column count 0,
and the returned indices 0, 1, 0 are not within [0, 0). -/
theorem claim1_counterexample :
    colsOf none [([] : RawRow)] = 0
    ∧ detectFromData none [([] : RawRow)]
        = { dateIdx := 0, costIdx := 1, serviceIdx := 0 }
    ∧ ¬ ((detectFromData none [([] : RawRow)]).dateIdx < colsOf none [([] : RawRow)]
        ∧ (detectFromData none [([] : RawRow)]).costIdx < colsOf none [([] : RawRow)]
        ∧ (detectFromData none [([] : RawRow)]).serviceIdx < colsOf none [([] : RawRow)]) := by
  refine ⟨rfl, rfl, ?_⟩
  decide

/-! Concrete metric-cell evaluations for the cumulative-series witness. -/

lemma parseFloatSafe_ten : parseFloatSafe (some "10") = 10 := by
  unfold parseFloatSafe
  rw [show jsParseFloat (stripCommas ((some "10").getD ""))
    = some ((1 : ℚ) * (((10 : Nat) : ℚ) + ((0 : Nat) : ℚ) / (10 : ℚ) ^ (0 : Nat)) * powTen 0)
    from rfl]
  norm_num [powTen]

lemma parseFloatSafe_five : parseFloatSafe (some "5") = 5 := by
  unfold parseFloatSafe
  rw [show jsParseFloat (stripCommas ((some "5").getD ""))
    = some ((1 : ℚ) * (((5 : Nat) : ℚ) + ((0 : Nat) : ℚ) / (10 : ℚ) ^ (0 : Nat)) * powTen 0)
    from rfl]
  norm_num [powTen]

lemma parseFloatSafe_seven : parseFloatSafe (some "7") = 7 := by
  unfold parseFloatSafe
  rw [show jsParseFloat (stripCommas ((some "7").getD ""))
    = some ((1 : ℚ) * (((7 : Nat) : ℚ) + ((0 : Nat) : ℚ) / (10 : ℚ) ^ (0 : Nat)) * powTen 0)
    from rfl]
  norm_num [powTen]

/-- C6: when every parsed metric value is nonnegative the cumulative series
is monotonically non-decreasing, for every aggregation mode, filter set and
bucketing choice; areaData sorts the per-bucket totals by bucket-key string
and takes a running sum in that order. -/
theorem claim6_cumulative_monotone (rows : List RawRow) (rules : List FilterRule)
    (dateIdx : Nat) (monthBucket : Bool) (format : DateFormat) (metricIdx : Nat)
    (agg : Aggregation)
    (h : ∀ r ∈ rows, 0 ≤ parseFloatSafe (getCell r metricIdx)) :
    List.Pairwise (· ≤ ·)
      ((areaData rows rules dateIdx monthBucket format metricIdx agg).map Prod.snd) := by
  have hval : ∀ r ∈ rows, 0 ≤ aggVal agg metricIdx r := by
    intro r hr
    cases agg with
    | count => norm_num [aggVal]
    | sum => exact h r hr
    | avg => exact h r hr
  have hsum : ∀ e ∈ foldTotals
      (fun row => formatDateBucket (getCell row dateIdx) monthBucket format)
      (aggVal agg metricIdx) rules rows, 0 ≤ e.2.1 := by
    intro e he
    exact foldStep_sum_nonneg _ _ rules rows [] hval (by simp) e he
  have hsorted : ∀ e ∈ sortByKey (foldTotals
      (fun row => formatDateBucket (getCell row dateIdx) monthBucket format)
      (aggVal agg metricIdx) rules rows), 0 ≤ finalVal agg e.2.1 e.2.2 := by
    intro e he
    exact finalVal_nonneg agg _ _ (hsum e (mem_sortByKey _ e he))
  exact (runCum_pairwise agg _ 0 hsorted).1

/-- C6 witness: the example grid with month bucketing on column 0 and sum of
column 1. -/
theorem claim6_witness :
    (∀ r ∈ exampleGrid, 0 ≤ parseFloatSafe (getCell r 1))
    ∧ List.Pairwise (· ≤ ·)
        ((areaData exampleGrid [] 0 true .auto 1 .sum).map Prod.snd) := by
  have hh : ∀ r ∈ exampleGrid, 0 ≤ parseFloatSafe (getCell r 1) := by
    intro r hr
    simp only [exampleGrid, List.mem_cons, List.not_mem_nil, or_false] at hr
    rcases hr with rfl | rfl | rfl
    · rw [show getCell [some "2024-01-05", some "10", some "VM"] 1 = some "10" from rfl,
        parseFloatSafe_ten]
      norm_num
    · rw [show getCell [some "2024-01-20", some "5", some "VM"] 1 = some "5" from rfl,
        parseFloatSafe_five]
      norm_num
    · rw [show getCell [some "2024-02-01", some "7", some "Storage"] 1 = some "7" from rfl,
        parseFloatSafe_seven]
      norm_num
  exact ⟨hh, claim6_cumulative_monotone exampleGrid [] 0 true .auto 1 .sum hh⟩

/-- C8 (amended): only the cost and metercategory header names override the
heuristic, for the metric and category roles respectively; the date role
always keeps the heuristic choice. -/
theorem claim8_override_scope (firstRow : List String) (rawRows : List RawRow) :
    (chooseMapping firstRow rawRows).dateIdx = (detectFromData (some firstRow) rawRows).dateIdx
    ∧ (∀ i, firstIdxOf "cost" (firstRow.map strLower) = some i →
        (chooseMapping firstRow rawRows).costIdx = i)
    ∧ (∀ j, firstIdxOf "metercategory" (firstRow.map strLower) = some j →
        (chooseMapping firstRow rawRows).serviceIdx = j)
    ∧ (firstIdxOf "cost" (firstRow.map strLower) = none →
        (chooseMapping firstRow rawRows).costIdx
          = (detectFromData (some firstRow) rawRows).costIdx)
    ∧ (firstIdxOf "metercategory" (firstRow.map strLower) = none →
        (chooseMapping firstRow rawRows).serviceIdx
          = (detectFromData (some firstRow) rawRows).serviceIdx) := by
  refine ⟨rfl, ?_, ?_, ?_, ?_⟩
  · intro i hi
    show (firstIdxOf "cost" (firstRow.map strLower)).getD
      (detectFromData (some firstRow) rawRows).costIdx = i
    rw [hi]
    rfl
  · intro j hj
    show (firstIdxOf "metercategory" (firstRow.map strLower)).getD
      (detectFromData (some firstRow) rawRows).serviceIdx = j
    rw [hj]
    rfl
  · intro hn
    show (firstIdxOf "cost" (firstRow.map strLower)).getD
      (detectFromData (some firstRow) rawRows).costIdx = _
    rw [hn]
    rfl
  · intro hn
    show (firstIdxOf "metercategory" (firstRow.map strLower)).getD
      (detectFromData (some firstRow) rawRows).serviceIdx = _
    rw [hn]
    rfl

/-- C8 counterexample: a header containing exact case-insensitive matches
UsageDate (index 1) and ServiceName (index 3) whose date and category roles
are nevertheless not mapped to those columns (the computed mapping is
dateIdx 0, costIdx 2, serviceIdx 1). -/
theorem claim8_counterexample :
    firstIdxOf "usagedate" (["A", "UsageDate", "Cost", "ServiceName"].map strLower) = some 1
    ∧ firstIdxOf "servicename" (["A", "UsageDate", "Cost", "ServiceName"].map strLower) = some 3
    ∧ chooseMapping ["A", "UsageDate", "Cost", "ServiceName"]
        [[some "2024-01-05", some "notadate", some "10", some "VM"]]
      = { dateIdx := 0, costIdx := 2, serviceIdx := 1 }
    ∧ (chooseMapping ["A", "UsageDate", "Cost", "ServiceName"]
        [[some "2024-01-05", some "notadate", some "10", some "VM"]]).dateIdx ≠ 1
    ∧ (chooseMapping ["A", "UsageDate", "Cost", "ServiceName"]
        [[some "2024-01-05", some "notadate", some "10", some "VM"]]).serviceIdx ≠ 3 := by
  refine ⟨by decide, by decide, by decide, by decide, by decide⟩

/-- C8 witness: the cost override applied on the same header. -/
theorem claim8_witness :
    (chooseMapping ["A", "UsageDate", "Cost", "ServiceName"]
        [[some "2024-01-05", some "notadate", some "10", some "VM"]]).costIdx = 2
    ∧ (chooseMapping ["A", "UsageDate", "Cost", "ServiceName"]
        [[some "2024-01-05", some "notadate", some "10", some "VM"]]).serviceIdx
      = (detectFromData (some ["A", "UsageDate", "Cost", "ServiceName"])
        [[some "2024-01-05", some "notadate", some "10", some "VM"]]).serviceIdx :=
  ⟨(claim8_override_scope ["A", "UsageDate", "Cost", "ServiceName"]
      [[some "2024-01-05", some "notadate", some "10", some "VM"]]).2.1 2 (by decide),
    (claim8_override_scope ["A", "UsageDate", "Cost", "ServiceName"]
      [[some "2024-01-05", some "notadate", some "10", some "VM"]]).2.2.2.2 (by decide)⟩
